import Mathlib

/-!
Verification of the Java bridge module `recipes/android/src/java.pyx`.

The module is embedded shallowly: every operation becomes a pure Lean
function over an oracle `JNIEnv` (the foreign runtime, modelled as a record
of pure functions) and returns a pair of the list of foreign-runtime
side effects it performed (`Event` trace) together with an `Except` value
mirroring the Python control flow (normal return or raised exception).
Foreign object references (`jobject`, `jclass`, `jmethodID`, `JNIEnv *`)
are modelled as natural numbers where `0` plays the role of `NULL`.
Text is modelled as `List Char` so that the Python slicing/split
operations of the source translate directly.
-/

/-- Foreign-runtime references (`jobject`, `jclass`, `jmethodID`); `0` is `NULL`. -/
abbrev Handle := Nat

/-- The Python exception that an operation of the module can raise, by
exception class.  `javaException msg` is the module's own
`JavaException(msg)` class; the remaining constructors are the builtin
Python exception classes that the source can raise: `MemoryError`,
`ValueError` (tuple unpacking with the wrong number of parts),
`AssertionError` (a failed bare `assert`, carrying no message),
`TypeError` (calling a non-callable object), `IndexError` (out-of-range
string or list indexing), `NotImplementedError`, and a plain `Exception`. -/
inductive JavaError where
  | javaException (msg : String)
  | memoryError (msg : String)
  | valueError
  | assertionError
  | typeError
  | indexError
  | notImplementedError (msg : String)
  | exception (msg : String)
  deriving DecidableEq

/-- True exactly for the module's own `JavaException` class (the single
descriptive-message error category of the module). -/
def JavaError.isJavaException : JavaError → Bool
  | .javaException _ => true
  | _ => false

/-- A Python value appearing as a call argument or a decoded result:
`none` is Python `None`, `str` a text value (`str`/`unicode`),
`javaObject` the module's wrapper class holding one foreign reference
(field `obj`), `float` carries an opaque floating payload. -/
inductive PyVal where
  | none
  | bool (b : Bool)
  | int (n : Int)
  | float (payload : Int)
  | str (s : List Char)
  | javaObject (h : Handle)
  deriving DecidableEq

/-- One `jvalue` union cell of the argument buffer.  `uninit` is a cell
that `populate_args` left untouched (an unrecognized descriptor falls
through every branch without writing the cell). -/
inductive JValue where
  | z (n : Int)
  | b (n : Int)
  | c (n : Int)
  | s (n : Int)
  | i (n : Int)
  | j (n : Int)
  | f (n : Int)
  | d (n : Int)
  | l (h : Handle)
  | uninit
  deriving DecidableEq

/-- One observable foreign-runtime side effect (JNI entry point actually
reached, plus the C allocator).  Typed invocation entry points are
recorded with the tag character selecting them. -/
inductive Event where
  | malloc (ok : Bool)
  | free
  | findClass (path : List Char)
  | getMethodID (cls : Handle) (name sig : List Char)
  | getStaticMethodID (cls : Handle) (name sig : List Char)
  | newObject (cls ctor : Handle)
  | callMethodA (tag : Char) (receiver method : Handle)
  | callStaticMethodA (tag : Char) (cls method : Handle)
  | newStringUTF (s : List Char)
  | getStringUTFChars (h : Handle)
  | releaseStringUTFChars (h : Handle)
  deriving DecidableEq

/-- The foreign runtime as a pure oracle: results of every JNI service the
module consumes.  A `0` result from a lookup means the lookup returned
`NULL`.  `mallocOK` tells whether the C allocator succeeds, `getEnvOK`
whether `SDL_ANDROID_GetJNIEnv` returns a live environment.
`uninitByte`/`uninitFloat` are the unspecified contents of a C local that
is read without ever being written (needed by the static byte/float
return paths of the source, which skip the foreign call). -/
structure JNIEnv where
  getEnvOK : Bool
  mallocOK : Bool
  findClass : List Char → Handle
  getMethodID : Handle → List Char → List Char → Handle
  getStaticMethodID : Handle → List Char → List Char → Handle
  newObject : Handle → Handle → List JValue → Handle
  callPrim : Char → Handle → Handle → List JValue → Int
  callStaticPrim : Char → Handle → Handle → List JValue → Int
  callObj : Handle → Handle → List JValue → Handle
  callStaticObj : Handle → Handle → List JValue → Handle
  newStringUTF : List Char → Handle
  getStringUTFChars : Handle → List Char
  uninitByte : Int
  uninitFloat : Int

/-- Python `s.split(sep)` for a one-character separator: always returns at
least one part, empty parts included. -/
def pySplit (sep : Char) : List Char → List (List Char)
  | [] => [[]]
  | ch :: rest =>
    match pySplit sep rest with
    | [] => [[]]
    | t :: ts => if ch = sep then [] :: t :: ts else (ch :: t) :: ts

/-- Python `sep.join(parts)` for a one-character separator. -/
def joinSep (sep : Char) : List (List Char) → List Char
  | [] => []
  | [t] => t
  | t :: ts => t ++ sep :: joinSep sep ts

/-- `if args[-1] == '': args.pop(-1)` of `parse_definition`: drop a single
trailing empty token. -/
def dropTrailingEmpty (toks : List (List Char)) : List (List Char) :=
  if toks.getLast? = some ([] : List Char) then toks.dropLast else toks

/-- `parse_definition(definition)`:
`args, ret = definition[1:].split(')')` raises `ValueError` unless the
split yields exactly two parts; a non-empty argument portion is split on
the `;` delimiter with one trailing empty token dropped. -/
def parse_definition (definition : List Char) : Except JavaError (List Char × List (List Char)) :=
  match pySplit ')' (definition.drop 1) with
  | [args, ret] =>
    .ok (ret, if args = [] then [] else dropTrailingEmpty (pySplit ';' args))
  | _ => .error .valueError

/-- Value of an `n`-bit unsigned C integer holding `x`. -/
def toUnsigned (w : Nat) (x : Int) : Int := x % ((2 : Int) ^ w)

/-- Value of an `n`-bit two's-complement C integer holding `x`. -/
def toSigned (w : Nat) (x : Int) : Int :=
  (x + (2 : Int) ^ (w - 1)) % ((2 : Int) ^ w) - (2 : Int) ^ (w - 1)

/-- The argument-position descriptor token for `java.lang.String`.  The
`;`-split of `parse_definition` strips the trailing `;`, and the source
compares against the stripped literal `Ljava/lang/String`. -/
def jlsArg : List Char :=
  ['L', 'j', 'a', 'v', 'a', '/', 'l', 'a', 'n', 'g', '/', 'S', 't', 'r', 'i', 'n', 'g']

/-- The return-position string descriptor `Ljava/lang/String;` (the return
descriptor keeps its trailing `;`). -/
def jlsRet : List Char := jlsArg ++ [';']

/-- Cython assignment of a Python value to a numeric `jvalue` field:
booleans and ints coerce, anything else raises `TypeError`. -/
def pyToNum : PyVal → Except JavaError Int
  | .bool b => .ok (if b then 1 else 0)
  | .int n => .ok n
  | .float q => .ok q
  | _ => .error .typeError

/-- One loop iteration of `JavaClass.populate_args` at position `index`:
converts one Python value according to one descriptor token.  Mirrors the
source branch for branch; the `[` branch executes
`raise NotImplemented(...)`, and since `NotImplemented` is not a callable
exception class in Python, what is actually raised is a `TypeError`;
an empty token raises `IndexError` at `argtype[0]`; a token whose first
character matches no branch leaves the cell unwritten. -/
def populate_arg (env : JNIEnv) (index : Nat) (argtype : List Char) (v : PyVal) :
    List Event × Except JavaError JValue :=
  if argtype = ['Z'] then ([], (pyToNum v).map JValue.z)
  else if argtype = ['B'] then ([], (pyToNum v).map JValue.b)
  else if argtype = ['C'] then ([], (pyToNum v).map JValue.c)
  else if argtype = ['S'] then ([], (pyToNum v).map JValue.s)
  else if argtype = ['I'] then ([], (pyToNum v).map JValue.i)
  else if argtype = ['J'] then ([], (pyToNum v).map JValue.j)
  else if argtype = ['F'] then ([], (pyToNum v).map JValue.f)
  else if argtype = ['D'] then ([], (pyToNum v).map JValue.d)
  else
    match argtype.head? with
    | Option.none => ([], .error .indexError)
    | some h0 =>
      if h0 = 'L' then
        if argtype = jlsArg then
          match v with
          | .str s => ([Event.newStringUTF s], .ok (JValue.l (env.newStringUTF s)))
          | .none => ([], .ok (JValue.l 0))
          | _ =>
            ([], .error (.javaException
              "Not a correct type of string, must be an instance of str or unicode"))
        else
          match v with
          | .javaObject h => ([], .ok (JValue.l h))
          | _ =>
            ([], .error (.javaException ("JavaObject needed for argument " ++ toString index)))
      else if h0 = '[' then
        ([], .error .typeError)
      else ([], .ok JValue.uninit)

/-- `JavaClass.populate_args`: left-to-right conversion of every supplied
value by its descriptor; the first failing conversion aborts, keeping the
effects already performed for the earlier positions. -/
def populate_args (env : JNIEnv) : List (List Char) → List PyVal → Nat →
    List Event × Except JavaError (List JValue)
  | [], _, _ => ([], .ok [])
  | t :: ts, vs, idx =>
    match vs with
    | [] => ([], .error .indexError)
    | v :: vrest =>
      match populate_arg env idx t v with
      | (e1, .error e) => (e1, .error e)
      | (e1, .ok cell) =>
        match populate_args env ts vrest (idx + 1) with
        | (e2, .error e) => (e1 ++ e2, .error e)
        | (e2, .ok cells) => (e1 ++ e2, .ok (cell :: cells))

/-- State of a `JavaMethod` object (its C attributes). -/
structure JavaMethodState where
  j_method : Handle
  j_cls : Handle
  j_self : Handle
  definition : List Char
  is_static : Bool
  definition_return : List Char
  definition_args : List (List Char)
  deriving DecidableEq

/-- State of a `JavaClass` object (its C attributes plus the two class
level declarations `__javaclass__` and `__javaconstructor__`, `none`
when the attribute is not declared). -/
structure JavaClassState where
  javaclass : Option (List Char)
  javaconstructor : Option (List Char)
  definition : List Char
  j_cls : Handle
  j_self : Handle
  deriving DecidableEq

/-- `JavaMethod.__init__(definition, **kwargs)`: stores the signature and
its parse, and the `static` flag. -/
def javaMethodInit (definition : List Char) (static : Bool) :
    Except JavaError JavaMethodState :=
  match parse_definition definition with
  | .error e => .error e
  | .ok (ret, args) =>
    .ok { j_method := 0, j_cls := 0, j_self := 0, definition := definition,
          is_static := static, definition_return := ret, definition_args := args }

/-- `JavaMethod.resolve_method(jc, name)`: copies the owning class's
environment, class handle and self handle into the method, asks the
matching lookup entry point for the method identifier, and checks it with
a bare `assert` (raising `AssertionError`, no message, when the lookup
returned `NULL`). -/
def resolve_method (env : JNIEnv) (jc : JavaClassState) (name : List Char)
    (jm : JavaMethodState) : List Event × Except JavaError JavaMethodState :=
  if jm.is_static then
    ([Event.getStaticMethodID jc.j_cls name jm.definition],
     if env.getStaticMethodID jc.j_cls name jm.definition = 0 then .error .assertionError
     else .ok { jm with j_cls := jc.j_cls, j_self := jc.j_self,
                        j_method := env.getStaticMethodID jc.j_cls name jm.definition })
  else
    ([Event.getMethodID jc.j_cls name jm.definition],
     if env.getMethodID jc.j_cls name jm.definition = 0 then .error .assertionError
     else .ok { jm with j_cls := jc.j_cls, j_self := jc.j_self,
                        j_method := env.getMethodID jc.j_cls name jm.definition })

/-- `JavaClass.resolve_methods`: resolve every declared method member of
the proxy type, aborting at the first failure.  The scan order of the
source (`dir`) is unspecified; the declared members are passed here as an
explicit association list. -/
def resolve_methods (env : JNIEnv) (jc : JavaClassState) :
    List (List Char × JavaMethodState) →
    List Event × Except JavaError (List (List Char × JavaMethodState))
  | [] => ([], .ok [])
  | (name, jm) :: rest =>
    match resolve_method env jc name jm with
    | (e1, .error e) => (e1, .error e)
    | (e1, .ok jm1) =>
      match resolve_methods env jc rest with
      | (e2, .error e) => (e1 ++ e2, .error e)
      | (e2, .ok ms) => (e1 ++ e2, .ok ((name, jm1) :: ms))

/-- `JavaClass.resolve_class`: requires `__javaclass__`, a live
environment, and a successful `FindClass`. -/
def resolve_class (env : JNIEnv) (st : JavaClassState) :
    List Event × Except JavaError JavaClassState :=
  match st.javaclass with
  | Option.none => ([], .error (.javaException "__javaclass__ definition missing"))
  | some cls =>
    if env.getEnvOK = false then
      ([], .error (.javaException "Unable to get the Android JNI Environment"))
    else if env.findClass cls = 0 then
      ([Event.findClass cls],
       .error (.javaException ("Unable to found the class " ++ String.mk cls)))
    else
      ([Event.findClass cls], .ok { st with j_cls := env.findClass cls })

/-- The constructor signature used by `JavaClass.call_constructor`: the
declared `__javaconstructor__` override, else the default `()V`. -/
def ctorDefinition (st : JavaClassState) : List Char :=
  st.javaconstructor.getD ['(', ')', 'V']

/-- The special constructor member name `<init>`. -/
def ctorName : List Char := ['<', 'i', 'n', 'i', 't', '>']

/-- Tail of `JavaClass.call_constructor` after the arguments are in place:
`GetMethodID` for `<init>` (failing with the module's `JavaException`
when it returns `NULL`), then `NewObjectA`, storing the new instance
handle.  `resolve_class` ran before any call of this, so `__javaclass__`
is present; `getD []` only satisfies totality. -/
def ctorLookupAndNew (env : JNIEnv) (st : JavaClassState) (cells : List JValue) :
    List Event × Except JavaError JavaClassState :=
  if env.getMethodID st.j_cls ctorName st.definition = 0 then
    ([Event.getMethodID st.j_cls ctorName st.definition],
     .error (.javaException
       ("Unable to found the constructor for " ++ String.mk (st.javaclass.getD []))))
  else
    ([Event.getMethodID st.j_cls ctorName st.definition,
      Event.newObject st.j_cls (env.getMethodID st.j_cls ctorName st.definition)],
     .ok { st with j_self := env.newObject st.j_cls
                     (env.getMethodID st.j_cls ctorName st.definition) cells })

/-- `JavaClass.call_constructor(args)`: store and parse the constructor
signature, check the arity, then inside `try/finally`: allocate the
argument buffer when there are arguments (no allocation for zero
arguments, `j_args` stays `NULL`), populate it, look the constructor up
and invoke `NewObjectA`; the `finally` block frees the buffer exactly
when it was allocated, on every exit path. -/
def call_constructor (env : JNIEnv) (st0 : JavaClassState) (args : List PyVal) :
    List Event × Except JavaError JavaClassState :=
  match parse_definition (ctorDefinition st0) with
  | .error e => ([], .error e)
  | .ok (_ret, dargs) =>
    if args.length ≠ dargs.length then
      ([], .error (.javaException "Invalid call, number of argument mismatch for constructor"))
    else if args.length = 0 then
      ctorLookupAndNew env { st0 with definition := ctorDefinition st0 } []
    else if env.mallocOK = false then
      ([Event.malloc false], .error (.memoryError "Unable to allocate memory for java args"))
    else
      match populate_args env dargs args 0 with
      | (pe, .error e) => (Event.malloc true :: (pe ++ [Event.free]), .error e)
      | (pe, .ok cells) =>
        match ctorLookupAndNew env { st0 with definition := ctorDefinition st0 } cells with
        | (e2, r2) => (Event.malloc true :: (pe ++ e2 ++ [Event.free]), r2)

/-- `JavaMethod.call_method(j_args)`: dispatch on the FIRST CHARACTER of
the return descriptor (`r = self.definition_return[0]`, a one-character
Python string).  Primitive results are cast as in the source
(`<char>`, `<short>`, ... on the C result of the typed call).  In the
`L` branch the source compares that one-character string `r` against the
full literal `Ljava/lang/String;`, which can never be equal, so the
string-decoding path (GetStringUTFChars / ReleaseStringUTFChars) is
unreachable and every object result is wrapped in a fresh `JavaObject`. -/
def call_method (env : JNIEnv) (jm : JavaMethodState) (cells : List JValue) :
    List Event × Except JavaError PyVal :=
  match jm.definition_return.head? with
  | Option.none => ([], .error .indexError)
  | some c0 =>
    let r : List Char := [c0]
    if r = ['V'] then
      ([Event.callMethodA 'V' jm.j_self jm.j_method], .ok PyVal.none)
    else if r = ['Z'] then
      ([Event.callMethodA 'Z' jm.j_self jm.j_method],
       .ok (if toUnsigned 8 (env.callPrim 'Z' jm.j_self jm.j_method cells) = 0
            then PyVal.bool false else PyVal.bool true))
    else if r = ['B'] then
      ([Event.callMethodA 'B' jm.j_self jm.j_method],
       .ok (PyVal.int (toSigned 8 (env.callPrim 'B' jm.j_self jm.j_method cells))))
    else if r = ['C'] then
      ([Event.callMethodA 'C' jm.j_self jm.j_method],
       .ok (PyVal.int (toSigned 8 (toUnsigned 16 (env.callPrim 'C' jm.j_self jm.j_method cells)))))
    else if r = ['S'] then
      ([Event.callMethodA 'S' jm.j_self jm.j_method],
       .ok (PyVal.int (toSigned 16 (env.callPrim 'S' jm.j_self jm.j_method cells))))
    else if r = ['I'] then
      ([Event.callMethodA 'I' jm.j_self jm.j_method],
       .ok (PyVal.int (toSigned 32 (env.callPrim 'I' jm.j_self jm.j_method cells))))
    else if r = ['J'] then
      ([Event.callMethodA 'J' jm.j_self jm.j_method],
       .ok (PyVal.int (toSigned 64 (env.callPrim 'J' jm.j_self jm.j_method cells))))
    else if r = ['F'] then
      ([Event.callMethodA 'F' jm.j_self jm.j_method],
       .ok (PyVal.float (env.callPrim 'F' jm.j_self jm.j_method cells)))
    else if r = ['D'] then
      ([Event.callMethodA 'D' jm.j_self jm.j_method],
       .ok (PyVal.float (env.callPrim 'D' jm.j_self jm.j_method cells)))
    else if r = ['L'] then
      if r = jlsRet then
        -- dead branch of the source: a one-character string never equals
        -- the full descriptor literal
        ([Event.callMethodA 'L' jm.j_self jm.j_method,
          Event.getStringUTFChars (env.callObj jm.j_self jm.j_method cells),
          Event.releaseStringUTFChars (env.callObj jm.j_self jm.j_method cells)],
         .ok (PyVal.str (env.getStringUTFChars (env.callObj jm.j_self jm.j_method cells))))
      else
        ([Event.callMethodA 'L' jm.j_self jm.j_method],
         .ok (PyVal.javaObject (env.callObj jm.j_self jm.j_method cells)))
    else if r = ['['] then
      ([], .error (.notImplementedError "Array arguments not implemented"))
    else
      ([], .error (.exception "Invalid return definition?"))

/-- `JavaMethod.call_staticmethod(j_args)`: the static mirror of
`call_method`, passing the class handle instead of the instance handle.
The `B` and `F` branches of the source contain a statement-continuation
slip: `j_byte = self.j_env[0].CallStaticByteMethodA` assigns the entry
point itself and the argument tuple on the next line is a discarded
expression, so no foreign call happens and the cast reads an unspecified
value (the oracle's `uninitByte`/`uninitFloat`). -/
def call_staticmethod (env : JNIEnv) (jm : JavaMethodState) (cells : List JValue) :
    List Event × Except JavaError PyVal :=
  match jm.definition_return.head? with
  | Option.none => ([], .error .indexError)
  | some c0 =>
    let r : List Char := [c0]
    if r = ['V'] then
      ([Event.callStaticMethodA 'V' jm.j_cls jm.j_method], .ok PyVal.none)
    else if r = ['Z'] then
      ([Event.callStaticMethodA 'Z' jm.j_cls jm.j_method],
       .ok (if toUnsigned 8 (env.callStaticPrim 'Z' jm.j_cls jm.j_method cells) = 0
            then PyVal.bool false else PyVal.bool true))
    else if r = ['B'] then
      ([], .ok (PyVal.int (toSigned 8 env.uninitByte)))
    else if r = ['C'] then
      ([Event.callStaticMethodA 'C' jm.j_cls jm.j_method],
       .ok (PyVal.int (toSigned 8 (toUnsigned 16
         (env.callStaticPrim 'C' jm.j_cls jm.j_method cells)))))
    else if r = ['S'] then
      ([Event.callStaticMethodA 'S' jm.j_cls jm.j_method],
       .ok (PyVal.int (toSigned 16 (env.callStaticPrim 'S' jm.j_cls jm.j_method cells))))
    else if r = ['I'] then
      ([Event.callStaticMethodA 'I' jm.j_cls jm.j_method],
       .ok (PyVal.int (toSigned 32 (env.callStaticPrim 'I' jm.j_cls jm.j_method cells))))
    else if r = ['J'] then
      ([Event.callStaticMethodA 'J' jm.j_cls jm.j_method],
       .ok (PyVal.int (toSigned 64 (env.callStaticPrim 'J' jm.j_cls jm.j_method cells))))
    else if r = ['F'] then
      ([], .ok (PyVal.float env.uninitFloat))
    else if r = ['D'] then
      ([Event.callStaticMethodA 'D' jm.j_cls jm.j_method],
       .ok (PyVal.float (env.callStaticPrim 'D' jm.j_cls jm.j_method cells)))
    else if r = ['L'] then
      if r = jlsRet then
        -- dead branch, as in call_method
        ([Event.callStaticMethodA 'L' jm.j_cls jm.j_method,
          Event.getStringUTFChars (env.callStaticObj jm.j_cls jm.j_method cells),
          Event.releaseStringUTFChars (env.callStaticObj jm.j_cls jm.j_method cells)],
         .ok (PyVal.str (env.getStringUTFChars (env.callStaticObj jm.j_cls jm.j_method cells))))
      else
        ([Event.callStaticMethodA 'L' jm.j_cls jm.j_method],
         .ok (PyVal.javaObject (env.callStaticObj jm.j_cls jm.j_method cells)))
    else if r = ['['] then
      ([], .error (.notImplementedError "Array arguments not implemented"))
    else
      ([], .error (.exception "Invalid return definition?"))

/-- `JavaMethod.__call__(*args)`: arity check, then inside `try/finally`:
allocate and populate the argument buffer when there are arguments
(`j_args` stays `NULL` for zero arguments), dispatch to the static or
instance call, and free the buffer exactly when it was allocated, on
every exit path. -/
def methodCall (env : JNIEnv) (jm : JavaMethodState) (args : List PyVal) :
    List Event × Except JavaError PyVal :=
  if args.length ≠ jm.definition_args.length then
    ([], .error (.javaException "Invalid call, number of argument mismatch"))
  else if args.length = 0 then
    if jm.is_static then call_staticmethod env jm [] else call_method env jm []
  else if env.mallocOK = false then
    ([Event.malloc false], .error (.memoryError "Unable to allocate memory for java args"))
  else
    match populate_args env jm.definition_args args 0 with
    | (pe, .error e) => (Event.malloc true :: (pe ++ [Event.free]), .error e)
    | (pe, .ok cells) =>
      match (if jm.is_static then call_staticmethod env jm cells else call_method env jm cells) with
      | (e2, r2) => (Event.malloc true :: (pe ++ e2 ++ [Event.free]), r2)

/-- `JavaClass.__init__(*args)`: resolve the class, resolve every declared
method member, then invoke the constructor.  Returns the final class
state together with the resolved bound methods (whose copied handles are
never touched again after resolution). -/
def classInit (env : JNIEnv) (st0 : JavaClassState)
    (methods : List (List Char × JavaMethodState)) (args : List PyVal) :
    List Event × Except JavaError (JavaClassState × List (List Char × JavaMethodState)) :=
  match resolve_class env st0 with
  | (e1, .error e) => (e1, .error e)
  | (e1, .ok st1) =>
    match resolve_methods env st1 methods with
    | (e2, .error e) => (e1 ++ e2, .error e)
    | (e2, .ok ms) =>
      match call_constructor env st1 args with
      | (e3, .error e) => (e1 ++ e2 ++ e3, .error e)
      | (e3, .ok st2) => (e1 ++ e2 ++ e3, .ok (st2, ms))

/-- The list of self handles carried by the bound methods a successful
`classInit` produced (`none` when it failed). -/
def resolvedSelves
    (r : List Event × Except JavaError (JavaClassState × List (List Char × JavaMethodState))) :
    Option (List Handle) :=
  match r.2 with
  | .ok (_, ms) => some (ms.map (fun p => p.2.j_self))
  | .error _ => Option.none

/-- Recognizer for the buffer-release event. -/
def isFree : Event → Bool
  | .free => true
  | _ => false

/-- Recognizer for a successful buffer allocation event. -/
def isAllocOK : Event → Bool
  | .malloc true => true
  | _ => false

/-- Number of buffer releases in a trace. -/
def countFree (l : List Event) : Nat := (l.filter isFree).length

/-- Number of successful buffer allocations in a trace. -/
def countAllocOK (l : List Event) : Nat := (l.filter isAllocOK).length

/-! ## Theorems about the claims -/

/-- Claim C1 fails on the code.  For a method whose declared return
descriptor is `Ljava/lang/String;`, both the instance and the static
invocation wrap the raw foreign reference in an object wrapper and never
read or release the foreign string: the whole trace is the single typed
object call, and the result is `PyVal.javaObject`, not text.  (The source
compares the one-character tag `r` against the full string literal, which
never matches.) -/
theorem string_return_is_wrapped_not_decoded (env : JNIEnv)
    (mth cls slf : Handle) (d : List Char) (stat : Bool)
    (dargs : List (List Char)) (cells : List JValue) :
    call_method env ⟨mth, cls, slf, d, stat, jlsRet, dargs⟩ cells =
      ([Event.callMethodA 'L' slf mth], .ok (PyVal.javaObject (env.callObj slf mth cells))) ∧
    call_staticmethod env ⟨mth, cls, slf, d, stat, jlsRet, dargs⟩ cells =
      ([Event.callStaticMethodA 'L' cls mth],
       .ok (PyVal.javaObject (env.callStaticObj cls mth cells))) :=
  ⟨rfl, rfl⟩

/-- Claim C2 fails on the code.  For a static method whose return
descriptor starts with `B` or with `F`, no foreign invocation entry point
is reached at all (empty event trace): the source assigns the entry point
without calling it, and the returned value is the cast of an unspecified
uninitialized local (modelled by the oracle junk fields). -/
theorem static_byte_float_skip_invocation (env : JNIEnv)
    (mth cls slf : Handle) (d : List Char) (stat : Bool)
    (restB restF : List Char) (dargs : List (List Char)) (cells : List JValue) :
    call_staticmethod env ⟨mth, cls, slf, d, stat, 'B' :: restB, dargs⟩ cells =
      ([], .ok (PyVal.int (toSigned 8 env.uninitByte))) ∧
    call_staticmethod env ⟨mth, cls, slf, d, stat, 'F' :: restF, dargs⟩ cells =
      ([], .ok (PyVal.float env.uninitFloat)) :=
  ⟨rfl, rfl⟩

/-- Claim C7: an array descriptor fails without any foreign call, but on
the argument path the raised exception is a `TypeError` (the source
executes `raise NotImplemented(...)` and `NotImplemented` is not
callable), while on the instance and static return paths it is the
`NotImplementedError` the claim describes; in every case the event trace
of the failing step is empty. -/
theorem array_descriptor_always_fails (env : JNIEnv) (idx : Nat)
    (rest rest2 : List Char) (v : PyVal)
    (mth cls slf : Handle) (d : List Char) (stat : Bool)
    (dargs : List (List Char)) (cells : List JValue) :
    populate_arg env idx ('[' :: rest) v = ([], .error .typeError) ∧
    call_method env ⟨mth, cls, slf, d, stat, '[' :: rest2, dargs⟩ cells =
      ([], .error (.notImplementedError "Array arguments not implemented")) ∧
    call_staticmethod env ⟨mth, cls, slf, d, stat, '[' :: rest2, dargs⟩ cells =
      ([], .error (.notImplementedError "Array arguments not implemented")) := by
  refine ⟨?_, rfl, rfl⟩
  simp only [populate_arg]
  have hz : ('[' :: rest) ≠ ['Z'] := by intro h; cases h
  have hb : ('[' :: rest) ≠ ['B'] := by intro h; cases h
  have hc : ('[' :: rest) ≠ ['C'] := by intro h; cases h
  have hs : ('[' :: rest) ≠ ['S'] := by intro h; cases h
  have hi : ('[' :: rest) ≠ ['I'] := by intro h; cases h
  have hj : ('[' :: rest) ≠ ['J'] := by intro h; cases h
  have hf : ('[' :: rest) ≠ ['F'] := by intro h; cases h
  have hd : ('[' :: rest) ≠ ['D'] := by intro h; cases h
  rw [if_neg hz, if_neg hb, if_neg hc, if_neg hs, if_neg hi, if_neg hj, if_neg hf, if_neg hd]
  simp

/-- Claim C9: for the string argument descriptor, `None` marshals to the
null reference with no string-construction event; a text value goes
through `NewStringUTF`; every other Python value class raises the
module's `JavaException` with the descriptive message, again with no
foreign event. -/
theorem string_argument_marshaling_cases (env : JNIEnv) (idx : Nat)
    (s : List Char) (b : Bool) (n q : Int) (h : Handle) :
    populate_arg env idx jlsArg PyVal.none = ([], .ok (JValue.l 0)) ∧
    populate_arg env idx jlsArg (PyVal.str s) =
      ([Event.newStringUTF s], .ok (JValue.l (env.newStringUTF s))) ∧
    populate_arg env idx jlsArg (PyVal.bool b) =
      ([], .error (.javaException
        "Not a correct type of string, must be an instance of str or unicode")) ∧
    populate_arg env idx jlsArg (PyVal.int n) =
      ([], .error (.javaException
        "Not a correct type of string, must be an instance of str or unicode")) ∧
    populate_arg env idx jlsArg (PyVal.float q) =
      ([], .error (.javaException
        "Not a correct type of string, must be an instance of str or unicode")) ∧
    populate_arg env idx jlsArg (PyVal.javaObject h) =
      ([], .error (.javaException
        "Not a correct type of string, must be an instance of str or unicode")) :=
  ⟨rfl, rfl, rfl, rfl, rfl, rfl⟩

/-- A concrete oracle on which every foreign lookup and call succeeds. -/
def env1 : JNIEnv :=
  { getEnvOK := true, mallocOK := true,
    findClass := fun _ => 1,
    getMethodID := fun _ _ _ => 2,
    getStaticMethodID := fun _ _ _ => 3,
    newObject := fun _ _ _ => 4,
    callPrim := fun _ _ _ _ => 5,
    callStaticPrim := fun _ _ _ _ => 5,
    callObj := fun _ _ _ => 6,
    callStaticObj := fun _ _ _ => 6,
    newStringUTF := fun _ => 7,
    getStringUTFChars := fun _ => ['h', 'i'],
    uninitByte := 11, uninitFloat := 12 }

/-- A concrete oracle on which every foreign lookup returns `NULL`. -/
def envZero : JNIEnv :=
  { getEnvOK := true, mallocOK := true,
    findClass := fun _ => 0,
    getMethodID := fun _ _ _ => 0,
    getStaticMethodID := fun _ _ _ => 0,
    newObject := fun _ _ _ => 0,
    callPrim := fun _ _ _ _ => 0,
    callStaticPrim := fun _ _ _ _ => 0,
    callObj := fun _ _ _ => 0,
    callStaticObj := fun _ _ _ => 0,
    newStringUTF := fun _ => 0,
    getStringUTFChars := fun _ => [],
    uninitByte := 0, uninitFloat := 0 }

/-- A concrete proxy-class state: declared class path `a`, no constructor
override, resolved class handle `5`, not yet constructed. -/
def jc0 : JavaClassState :=
  { javaclass := some ['a'], javaconstructor := Option.none,
    definition := [], j_cls := 5, j_self := 0 }

/-- A concrete instance-method state with signature `()V`. -/
def jm0 : JavaMethodState :=
  { j_method := 0, j_cls := 0, j_self := 0,
    definition := ['(', ')', 'V'], is_static := false,
    definition_return := ['V'], definition_args := [] }

/-- Claim C8 as stated is false: when the runtime returns no identifier,
`resolve_method` fails through a bare `assert`, i.e. an `AssertionError`
that is not the module's descriptive-message `JavaException` category. -/
theorem resolve_failure_not_descriptive_counterexample :
    (resolve_method envZero jc0 ['m'] jm0).2 = .error .assertionError ∧
    JavaError.isJavaException .assertionError = false :=
  ⟨rfl, rfl⟩

/-- Claim C8, amended: during resolution the foreign method identifier is
requested via the lookup entry point matching the static flag (static
lookup for static methods, instance lookup otherwise), and when the
runtime returns no identifier the resolution fails — but with a bare
assertion failure carrying no descriptive message, not with the module's
single descriptive-message error category. -/
theorem resolve_method_lookup_behaviour (env : JNIEnv) (jc : JavaClassState)
    (name : List Char) (mth cls slf : Handle) (d ret : List Char)
    (dargs : List (List Char)) :
    resolve_method env jc name ⟨mth, cls, slf, d, true, ret, dargs⟩ =
      ([Event.getStaticMethodID jc.j_cls name d],
       if env.getStaticMethodID jc.j_cls name d = 0 then .error .assertionError
       else .ok ⟨env.getStaticMethodID jc.j_cls name d, jc.j_cls, jc.j_self,
                 d, true, ret, dargs⟩) ∧
    resolve_method env jc name ⟨mth, cls, slf, d, false, ret, dargs⟩ =
      ([Event.getMethodID jc.j_cls name d],
       if env.getMethodID jc.j_cls name d = 0 then .error .assertionError
       else .ok ⟨env.getMethodID jc.j_cls name d, jc.j_cls, jc.j_self,
                 d, false, ret, dargs⟩) :=
  ⟨rfl, rfl⟩

/-- Claim C3: when the number of supplied arguments differs from the
parsed descriptor count, constructor invocation and bound-method
invocation both fail with the module's arity-mismatch `JavaException`,
and the event trace is empty — no allocation, no marshaling, no lookup
and no foreign invocation happened before the failure. -/
theorem arity_mismatch_aborts_with_no_foreign_events
    (env : JNIEnv) (st : JavaClassState) (args : List PyVal)
    (jm : JavaMethodState) (vargs : List PyVal)
    (ret : List Char) (dargs : List (List Char)) :
    (parse_definition (ctorDefinition st) = .ok (ret, dargs) →
      args.length ≠ dargs.length →
      call_constructor env st args =
        ([], .error (.javaException
          "Invalid call, number of argument mismatch for constructor"))) ∧
    (vargs.length ≠ jm.definition_args.length →
      methodCall env jm vargs =
        ([], .error (.javaException "Invalid call, number of argument mismatch"))) := by
  constructor
  · intro hp hlen
    simp only [call_constructor, hp]
    rw [if_pos hlen]
  · intro hlen
    unfold methodCall
    rw [if_pos hlen]

/-- Witness for claim C3 at a concrete arity mismatch: one argument
supplied against the zero-argument constructor `()V` and against a
zero-argument method. -/
theorem arity_mismatch_aborts_with_no_foreign_events_witness :
    call_constructor env1 jc0 [PyVal.int 1] =
      ([], .error (.javaException
        "Invalid call, number of argument mismatch for constructor")) ∧
    methodCall env1 jm0 [PyVal.int 1] =
      ([], .error (.javaException "Invalid call, number of argument mismatch")) :=
  ⟨(arity_mismatch_aborts_with_no_foreign_events env1 jc0 [PyVal.int 1] jm0
      [PyVal.int 1] ['V'] []).1 rfl (by decide),
   (arity_mismatch_aborts_with_no_foreign_events env1 jc0 [PyVal.int 1] jm0
      [PyVal.int 1] ['V'] []).2 (by decide)⟩

/-- A successfully resolved method carries the self handle the owning
class held at resolution time. -/
lemma resolve_method_keeps_class_self (env : JNIEnv) (jc : JavaClassState)
    (name : List Char) (jm jm1 : JavaMethodState)
    (h : (resolve_method env jc name jm).2 = .ok jm1) : jm1.j_self = jc.j_self := by
  unfold resolve_method at h
  by_cases hstat : jm.is_static
  · rw [if_pos hstat] at h
    by_cases h0 : env.getStaticMethodID jc.j_cls name jm.definition = 0
    · rw [if_pos h0] at h
      exact Except.noConfusion h
    · rw [if_neg h0] at h
      have h2 := Except.ok.inj h
      rw [← h2]
  · rw [if_neg hstat] at h
    by_cases h0 : env.getMethodID jc.j_cls name jm.definition = 0
    · rw [if_pos h0] at h
      exact Except.noConfusion h
    · rw [if_neg h0] at h
      have h2 := Except.ok.inj h
      rw [← h2]

/-- Every method that `resolve_methods` resolved carries the owning
class's self handle at resolution time. -/
lemma resolve_methods_keep_class_self (env : JNIEnv) (jc : JavaClassState) :
    ∀ (ml ms : List (List Char × JavaMethodState)),
    (resolve_methods env jc ml).2 = .ok ms →
    ms.all (fun p => p.2.j_self == jc.j_self) = true := by
  intro ml
  induction ml with
  | nil =>
    intro ms h
    cases h
    rfl
  | cons p rest ih =>
    intro ms h
    obtain ⟨name, jm⟩ := p
    unfold resolve_methods at h
    rcases h1 : resolve_method env jc name jm with ⟨e1, r1⟩
    rw [h1] at h
    cases r1 with
    | error e => exact Except.noConfusion h
    | ok jm1 =>
      rcases h2 : resolve_methods env jc rest with ⟨e2, r2⟩
      rw [h2] at h
      cases r2 with
      | error e => exact Except.noConfusion h
      | ok ms2 =>
        have hms := Except.ok.inj h
        rw [← hms]
        have hself : jm1.j_self = jc.j_self := by
          apply resolve_method_keeps_class_self env jc name jm jm1
          rw [h1]
        have htail := ih ms2 (by rw [h2])
        simp only [List.all_cons, htail, Bool.and_true, hself, beq_self_eq_true]

/-- `resolve_class` does not touch the self handle. -/
lemma resolve_class_keeps_self (env : JNIEnv) (st st1 : JavaClassState)
    (h : (resolve_class env st).2 = .ok st1) : st1.j_self = st.j_self := by
  unfold resolve_class at h
  rcases hcls : st.javaclass with _ | cls
  · rw [hcls] at h
    exact Except.noConfusion h
  · rw [hcls] at h
    dsimp only at h
    by_cases henv : env.getEnvOK = false
    · rw [if_pos henv] at h
      exact Except.noConfusion h
    · rw [if_neg henv] at h
      by_cases hfind : env.findClass cls = 0
      · rw [if_pos hfind] at h
        exact Except.noConfusion h
      · rw [if_neg hfind] at h
        have h2 := Except.ok.inj h
        rw [← h2]

/-- Mapping the self-handle projection over a method list preserves an
`all` bound on that projection. -/
lemma all_map_self_handles (s : Handle) :
    ∀ ms : List (List Char × JavaMethodState),
    ms.all (fun p => p.2.j_self == s) = true →
    (ms.map (fun p => p.2.j_self)).all (fun h => h == s) = true := by
  intro ms
  induction ms with
  | nil => intro _; rfl
  | cons p rest ih =>
    intro h
    simp only [List.all_cons, Bool.and_eq_true] at h
    simp only [List.map_cons, List.all_cons, Bool.and_eq_true]
    exact ⟨h.1, ih h.2⟩

/-- Claim C10: for a proxy whose self handle is `s` before construction,
every bound method produced by the full `__init__` pipeline (class
resolution, then method resolution, then constructor invocation) still
carries the pre-construction self handle `s` — the constructor, which
runs after resolution and updates only the class state's own handle,
never updates the methods' copies.  In particular, since `__cinit__`
initializes the handle to `NULL`, every instance-bound method of a
freshly constructed proxy carries the null self handle. -/
theorem bound_methods_carry_resolution_time_self (env : JNIEnv)
    (cp ctor : Option (List Char)) (df : List Char) (k s : Handle)
    (methods : List (List Char × JavaMethodState)) (args : List PyVal) :
    ((resolvedSelves (classInit env ⟨cp, ctor, df, k, s⟩ methods args)).getD []).all
      (fun h => h == s) = true := by
  unfold classInit
  rcases h1 : resolve_class env ⟨cp, ctor, df, k, s⟩ with ⟨e1, r1⟩
  cases r1 with
  | error e => rfl
  | ok st1 =>
    dsimp only
    rcases h2 : resolve_methods env st1 methods with ⟨e2, r2⟩
    cases r2 with
    | error e => rfl
    | ok ms =>
      dsimp only
      rcases h3 : call_constructor env st1 args with ⟨e3, r3⟩
      cases r3 with
      | error e => rfl
      | ok st2 =>
        have hs1 : st1.j_self = s := resolve_class_keeps_self env _ st1 (by rw [h1])
        have hall := resolve_methods_keep_class_self env st1 methods ms (by rw [h2])
        rw [hs1] at hall
        dsimp only [resolvedSelves]
        rw [Option.getD_some]
        exact all_map_self_handles s ms hall

/-- Splitting a trace distributes over the free count. -/
lemma countFree_append (l1 l2 : List Event) :
    countFree (l1 ++ l2) = countFree l1 + countFree l2 := by
  unfold countFree
  rw [List.filter_append, List.length_append]

/-- Splitting a trace distributes over the successful-allocation count. -/
lemma countAllocOK_append (l1 l2 : List Event) :
    countAllocOK (l1 ++ l2) = countAllocOK l1 + countAllocOK l2 := by
  unfold countAllocOK
  rw [List.filter_append, List.length_append]

/-- A successful allocation at the head of a trace is counted once. -/
lemma countAllocOK_cons_mallocTrue (l : List Event) :
    countAllocOK (Event.malloc true :: l) = countAllocOK l + 1 := rfl

/-- A successful allocation is not a release. -/
lemma countFree_cons_mallocTrue (l : List Event) :
    countFree (Event.malloc true :: l) = countFree l := rfl

/-- Marshaling one argument performs no release and no allocation. -/
lemma populate_arg_counts (env : JNIEnv) (idx : Nat) (t : List Char) (v : PyVal) :
    countFree (populate_arg env idx t v).1 = 0 ∧
    countAllocOK (populate_arg env idx t v).1 = 0 := by
  unfold populate_arg
  by_cases h1 : t = ['Z']
  · rw [if_pos h1]; exact ⟨rfl, rfl⟩
  · rw [if_neg h1]
    by_cases h2 : t = ['B']
    · rw [if_pos h2]; exact ⟨rfl, rfl⟩
    · rw [if_neg h2]
      by_cases h3 : t = ['C']
      · rw [if_pos h3]; exact ⟨rfl, rfl⟩
      · rw [if_neg h3]
        by_cases h4 : t = ['S']
        · rw [if_pos h4]; exact ⟨rfl, rfl⟩
        · rw [if_neg h4]
          by_cases h5 : t = ['I']
          · rw [if_pos h5]; exact ⟨rfl, rfl⟩
          · rw [if_neg h5]
            by_cases h6 : t = ['J']
            · rw [if_pos h6]; exact ⟨rfl, rfl⟩
            · rw [if_neg h6]
              by_cases h7 : t = ['F']
              · rw [if_pos h7]; exact ⟨rfl, rfl⟩
              · rw [if_neg h7]
                by_cases h8 : t = ['D']
                · rw [if_pos h8]; exact ⟨rfl, rfl⟩
                · rw [if_neg h8]
                  cases hh : t.head? with
                  | none => exact ⟨rfl, rfl⟩
                  | some h0 =>
                    dsimp only
                    by_cases hL : h0 = 'L'
                    · rw [if_pos hL]
                      by_cases hjls : t = jlsArg
                      · rw [if_pos hjls]
                        cases v <;> exact ⟨rfl, rfl⟩
                      · rw [if_neg hjls]
                        cases v <;> exact ⟨rfl, rfl⟩
                    · rw [if_neg hL]
                      by_cases hArr : h0 = '['
                      · rw [if_pos hArr]; exact ⟨rfl, rfl⟩
                      · rw [if_neg hArr]; exact ⟨rfl, rfl⟩

/-- Marshaling a whole argument tuple performs no release and no
allocation. -/
lemma populate_args_counts (env : JNIEnv) :
    ∀ (ts : List (List Char)) (vs : List PyVal) (idx : Nat),
    countFree (populate_args env ts vs idx).1 = 0 ∧
    countAllocOK (populate_args env ts vs idx).1 = 0 := by
  intro ts
  induction ts with
  | nil => intro vs idx; exact ⟨rfl, rfl⟩
  | cons t ts ih =>
    intro vs idx
    cases vs with
    | nil => exact ⟨rfl, rfl⟩
    | cons v vrest =>
      unfold populate_args
      dsimp only
      rcases h1 : populate_arg env idx t v with ⟨e1, r1⟩
      have he1 := populate_arg_counts env idx t v
      rw [h1] at he1
      cases r1 with
      | error e => exact he1
      | ok cell =>
        dsimp only
        rcases h2 : populate_args env ts vrest (idx + 1) with ⟨e2, r2⟩
        have he2 := ih vrest (idx + 1)
        rw [h2] at he2
        cases r2 with
        | error e =>
          dsimp only
          rw [countFree_append, countAllocOK_append, he1.1, he1.2, he2.1, he2.2]
          exact ⟨rfl, rfl⟩
        | ok cells =>
          dsimp only
          rw [countFree_append, countAllocOK_append, he1.1, he1.2, he2.1, he2.2]
          exact ⟨rfl, rfl⟩

/-- An instance invocation performs no release and no allocation. -/
lemma call_method_counts (env : JNIEnv) (jm : JavaMethodState) (cells : List JValue) :
    countFree (call_method env jm cells).1 = 0 ∧
    countAllocOK (call_method env jm cells).1 = 0 := by
  unfold call_method
  cases hh : jm.definition_return.head? with
  | none => exact ⟨rfl, rfl⟩
  | some c0 =>
    dsimp only
    by_cases h1 : ([c0] : List Char) = ['V']
    · rw [if_pos h1]; exact ⟨rfl, rfl⟩
    · rw [if_neg h1]
      by_cases h2 : ([c0] : List Char) = ['Z']
      · rw [if_pos h2]; exact ⟨rfl, rfl⟩
      · rw [if_neg h2]
        by_cases h3 : ([c0] : List Char) = ['B']
        · rw [if_pos h3]; exact ⟨rfl, rfl⟩
        · rw [if_neg h3]
          by_cases h4 : ([c0] : List Char) = ['C']
          · rw [if_pos h4]; exact ⟨rfl, rfl⟩
          · rw [if_neg h4]
            by_cases h5 : ([c0] : List Char) = ['S']
            · rw [if_pos h5]; exact ⟨rfl, rfl⟩
            · rw [if_neg h5]
              by_cases h6 : ([c0] : List Char) = ['I']
              · rw [if_pos h6]; exact ⟨rfl, rfl⟩
              · rw [if_neg h6]
                by_cases h7 : ([c0] : List Char) = ['J']
                · rw [if_pos h7]; exact ⟨rfl, rfl⟩
                · rw [if_neg h7]
                  by_cases h8 : ([c0] : List Char) = ['F']
                  · rw [if_pos h8]; exact ⟨rfl, rfl⟩
                  · rw [if_neg h8]
                    by_cases h9 : ([c0] : List Char) = ['D']
                    · rw [if_pos h9]; exact ⟨rfl, rfl⟩
                    · rw [if_neg h9]
                      by_cases hA : ([c0] : List Char) = ['L']
                      · rw [if_pos hA]
                        by_cases hB : ([c0] : List Char) = jlsRet
                        · rw [if_pos hB]; exact ⟨rfl, rfl⟩
                        · rw [if_neg hB]; exact ⟨rfl, rfl⟩
                      · rw [if_neg hA]
                        by_cases hC : ([c0] : List Char) = ['[']
                        · rw [if_pos hC]; exact ⟨rfl, rfl⟩
                        · rw [if_neg hC]; exact ⟨rfl, rfl⟩

/-- A static invocation performs no release and no allocation. -/
lemma call_staticmethod_counts (env : JNIEnv) (jm : JavaMethodState) (cells : List JValue) :
    countFree (call_staticmethod env jm cells).1 = 0 ∧
    countAllocOK (call_staticmethod env jm cells).1 = 0 := by
  unfold call_staticmethod
  cases hh : jm.definition_return.head? with
  | none => exact ⟨rfl, rfl⟩
  | some c0 =>
    dsimp only
    by_cases h1 : ([c0] : List Char) = ['V']
    · rw [if_pos h1]; exact ⟨rfl, rfl⟩
    · rw [if_neg h1]
      by_cases h2 : ([c0] : List Char) = ['Z']
      · rw [if_pos h2]; exact ⟨rfl, rfl⟩
      · rw [if_neg h2]
        by_cases h3 : ([c0] : List Char) = ['B']
        · rw [if_pos h3]; exact ⟨rfl, rfl⟩
        · rw [if_neg h3]
          by_cases h4 : ([c0] : List Char) = ['C']
          · rw [if_pos h4]; exact ⟨rfl, rfl⟩
          · rw [if_neg h4]
            by_cases h5 : ([c0] : List Char) = ['S']
            · rw [if_pos h5]; exact ⟨rfl, rfl⟩
            · rw [if_neg h5]
              by_cases h6 : ([c0] : List Char) = ['I']
              · rw [if_pos h6]; exact ⟨rfl, rfl⟩
              · rw [if_neg h6]
                by_cases h7 : ([c0] : List Char) = ['J']
                · rw [if_pos h7]; exact ⟨rfl, rfl⟩
                · rw [if_neg h7]
                  by_cases h8 : ([c0] : List Char) = ['F']
                  · rw [if_pos h8]; exact ⟨rfl, rfl⟩
                  · rw [if_neg h8]
                    by_cases h9 : ([c0] : List Char) = ['D']
                    · rw [if_pos h9]; exact ⟨rfl, rfl⟩
                    · rw [if_neg h9]
                      by_cases hA : ([c0] : List Char) = ['L']
                      · rw [if_pos hA]
                        by_cases hB : ([c0] : List Char) = jlsRet
                        · rw [if_pos hB]; exact ⟨rfl, rfl⟩
                        · rw [if_neg hB]; exact ⟨rfl, rfl⟩
                      · rw [if_neg hA]
                        by_cases hC : ([c0] : List Char) = ['[']
                        · rw [if_pos hC]; exact ⟨rfl, rfl⟩
                        · rw [if_neg hC]; exact ⟨rfl, rfl⟩

/-- The constructor lookup and `NewObjectA` step performs no release and
no allocation. -/
lemma ctorLookupAndNew_counts (env : JNIEnv) (st : JavaClassState) (cells : List JValue) :
    countFree (ctorLookupAndNew env st cells).1 = 0 ∧
    countAllocOK (ctorLookupAndNew env st cells).1 = 0 := by
  unfold ctorLookupAndNew
  by_cases h0 : env.getMethodID st.j_cls ctorName st.definition = 0
  · rw [if_pos h0]; exact ⟨rfl, rfl⟩
  · rw [if_neg h0]; exact ⟨rfl, rfl⟩

/-- Over the full `JavaMethod.__call__` path, the number of buffer
releases equals the number of successful buffer allocations (and at most
one allocation is ever attempted). -/
lemma methodCall_counts (env : JNIEnv) (jm : JavaMethodState) (vargs : List PyVal) :
    countFree (methodCall env jm vargs).1 = countAllocOK (methodCall env jm vargs).1 ∧
    countAllocOK (methodCall env jm vargs).1 ≤ 1 := by
  unfold methodCall
  by_cases h1 : vargs.length ≠ jm.definition_args.length
  · rw [if_pos h1]
    exact ⟨rfl, Nat.zero_le 1⟩
  · rw [if_neg h1]
    by_cases h2 : vargs.length = 0
    · rw [if_pos h2]
      by_cases hstat : jm.is_static
      · rw [if_pos hstat]
        obtain ⟨hf, ha⟩ := call_staticmethod_counts env jm []
        exact ⟨by rw [hf, ha], by rw [ha]; exact Nat.zero_le 1⟩
      · rw [if_neg hstat]
        obtain ⟨hf, ha⟩ := call_method_counts env jm []
        exact ⟨by rw [hf, ha], by rw [ha]; exact Nat.zero_le 1⟩
    · rw [if_neg h2]
      by_cases h3 : env.mallocOK = false
      · rw [if_pos h3]
        exact ⟨rfl, Nat.zero_le 1⟩
      · rw [if_neg h3]
        rcases hp : populate_args env jm.definition_args vargs 0 with ⟨pe, pr⟩
        have hpe := populate_args_counts env jm.definition_args vargs 0
        rw [hp] at hpe
        cases pr with
        | error e =>
          dsimp only
          rw [countFree_cons_mallocTrue, countAllocOK_cons_mallocTrue,
              countFree_append, countAllocOK_append, hpe.1, hpe.2]
          exact ⟨rfl, Nat.le_refl 1⟩
        | ok cells =>
          dsimp only
          by_cases hstat : jm.is_static
          · rw [if_pos hstat]
            rcases hc : call_staticmethod env jm cells with ⟨e2, r2⟩
            have hcc := call_staticmethod_counts env jm cells
            rw [hc] at hcc
            dsimp only
            rw [countFree_cons_mallocTrue, countAllocOK_cons_mallocTrue,
                countFree_append, countAllocOK_append, countFree_append,
                countAllocOK_append, hpe.1, hpe.2, hcc.1, hcc.2]
            exact ⟨rfl, Nat.le_refl 1⟩
          · rw [if_neg hstat]
            rcases hc : call_method env jm cells with ⟨e2, r2⟩
            have hcc := call_method_counts env jm cells
            rw [hc] at hcc
            dsimp only
            rw [countFree_cons_mallocTrue, countAllocOK_cons_mallocTrue,
                countFree_append, countAllocOK_append, countFree_append,
                countAllocOK_append, hpe.1, hpe.2, hcc.1, hcc.2]
            exact ⟨rfl, Nat.le_refl 1⟩

/-- Over the full `JavaClass.call_constructor` path, the number of buffer
releases equals the number of successful buffer allocations (and at most
one allocation is ever attempted). -/
lemma call_constructor_counts (env : JNIEnv) (st0 : JavaClassState) (args : List PyVal) :
    countFree (call_constructor env st0 args).1 =
      countAllocOK (call_constructor env st0 args).1 ∧
    countAllocOK (call_constructor env st0 args).1 ≤ 1 := by
  unfold call_constructor
  rcases hparse : parse_definition (ctorDefinition st0) with e | pr
  · exact ⟨rfl, Nat.zero_le 1⟩
  · obtain ⟨ret, dargs⟩ := pr
    dsimp only
    by_cases h1 : args.length ≠ dargs.length
    · rw [if_pos h1]
      exact ⟨rfl, Nat.zero_le 1⟩
    · rw [if_neg h1]
      by_cases h2 : args.length = 0
      · rw [if_pos h2]
        obtain ⟨hf, ha⟩ :=
          ctorLookupAndNew_counts env { st0 with definition := ctorDefinition st0 } []
        exact ⟨by rw [hf, ha], by rw [ha]; exact Nat.zero_le 1⟩
      · rw [if_neg h2]
        by_cases h3 : env.mallocOK = false
        · rw [if_pos h3]
          exact ⟨rfl, Nat.zero_le 1⟩
        · rw [if_neg h3]
          rcases hp : populate_args env dargs args 0 with ⟨pe, pr2⟩
          have hpe := populate_args_counts env dargs args 0
          rw [hp] at hpe
          cases pr2 with
          | error e =>
            dsimp only
            rw [countFree_cons_mallocTrue, countAllocOK_cons_mallocTrue,
                countFree_append, countAllocOK_append, hpe.1, hpe.2]
            exact ⟨rfl, Nat.le_refl 1⟩
          | ok cells =>
            dsimp only
            rcases hc : ctorLookupAndNew env { st0 with definition := ctorDefinition st0 }
                cells with ⟨e2, r2⟩
            have hcc :=
              ctorLookupAndNew_counts env { st0 with definition := ctorDefinition st0 } cells
            rw [hc] at hcc
            dsimp only
            rw [countFree_cons_mallocTrue, countAllocOK_cons_mallocTrue,
                countFree_append, countAllocOK_append, countFree_append,
                countAllocOK_append, hpe.1, hpe.2, hcc.1, hcc.2]
            exact ⟨rfl, Nat.le_refl 1⟩

/-- Claim C4: on every exit path of constructor invocation and of
bound-method invocation — success, marshaling failure, allocation
failure, or foreign-call failure — the call-argument buffer is freed
exactly as many times as it was successfully allocated (so exactly once
whenever it was allocated), and allocation is attempted at most once. -/
theorem arg_buffer_freed_iff_allocated (env : JNIEnv) (st : JavaClassState)
    (args : List PyVal) (jm : JavaMethodState) (vargs : List PyVal) :
    (countFree (call_constructor env st args).1 =
       countAllocOK (call_constructor env st args).1 ∧
     countAllocOK (call_constructor env st args).1 ≤ 1) ∧
    (countFree (methodCall env jm vargs).1 =
       countAllocOK (methodCall env jm vargs).1 ∧
     countAllocOK (methodCall env jm vargs).1 ≤ 1) :=
  ⟨call_constructor_counts env st args, methodCall_counts env jm vargs⟩

/-- The empty-separator join equations, stated for rewriting. -/
lemma joinSep_cons_cons (sep : Char) (t u : List Char) (us : List (List Char)) :
    joinSep sep (t :: u :: us) = t ++ sep :: joinSep sep (u :: us) := rfl

/-- Unfolding equation of `pySplit` on the empty string. -/
lemma pySplit_nil (sep : Char) : pySplit sep [] = [[]] := rfl

/-- Unfolding equation of `pySplit` on a non-empty string. -/
lemma pySplit_cons (sep ch : Char) (rest : List Char) :
    pySplit sep (ch :: rest) =
      match pySplit sep rest with
      | [] => [[]]
      | t :: ts => if ch = sep then [] :: t :: ts else (ch :: t) :: ts := rfl

/-- A Python split never returns an empty list of parts. -/
lemma pySplit_ne_nil (sep : Char) (s : List Char) : pySplit sep s ≠ [] := by
  cases s with
  | nil => simp [pySplit]
  | cons c rest =>
    unfold pySplit
    cases h : pySplit sep rest with
    | nil => simp
    | cons t ts =>
      dsimp only
      by_cases hc : c = sep
      · rw [if_pos hc]; simp
      · rw [if_neg hc]; simp

/-- Rejoining the parts of a Python split with the separator restores the
original string. -/
lemma joinSep_pySplit (sep : Char) : ∀ s : List Char, joinSep sep (pySplit sep s) = s := by
  intro s
  induction s with
  | nil => rfl
  | cons c rest ih =>
    cases h : pySplit sep rest with
    | nil => exact absurd h (pySplit_ne_nil sep rest)
    | cons t ts =>
      rw [h] at ih
      unfold pySplit
      rw [h]
      dsimp only
      by_cases hc : c = sep
      · rw [if_pos hc]
        rw [joinSep_cons_cons, List.nil_append, ih, hc]
      · rw [if_neg hc]
        cases ts with
        | nil =>
          simp only [joinSep] at ih ⊢
          rw [ih]
        | cons u us =>
          rw [joinSep_cons_cons] at ih
          rw [joinSep_cons_cons, List.cons_append, ih]

/-- A string free of the separator splits into the single part that is
the whole string. -/
lemma pySplit_not_mem (sep : Char) : ∀ s : List Char, sep ∉ s → pySplit sep s = [s] := by
  intro s
  induction s with
  | nil => intro _; rfl
  | cons c rest ih =>
    intro h
    rw [List.mem_cons, not_or] at h
    obtain ⟨h1, h2⟩ := h
    unfold pySplit
    rw [ih h2]
    dsimp only
    rw [if_neg (fun e => h1 e.symm)]

/-- Splitting around the first separator occurrence: the separator-free
prefix becomes the first part. -/
lemma pySplit_append_cons (sep : Char) :
    ∀ x y : List Char, sep ∉ x → pySplit sep (x ++ sep :: y) = x :: pySplit sep y := by
  intro x
  induction x with
  | nil =>
    intro y _
    cases h : pySplit sep y with
    | nil => exact absurd h (pySplit_ne_nil sep y)
    | cons t ts =>
      rw [List.nil_append]
      unfold pySplit
      rw [h]
      dsimp only
      rw [if_pos rfl]
  | cons c x2 ih =>
    intro y h
    rw [List.mem_cons, not_or] at h
    obtain ⟨h1, h2⟩ := h
    rw [List.cons_append, pySplit_cons, ih y h2]
    dsimp only
    rw [if_neg (fun e => h1 e.symm)]

/-- A terminal separator contributes exactly one extra empty part at the
end of the split. -/
lemma pySplit_concat (sep : Char) :
    ∀ x : List Char, pySplit sep (x ++ [sep]) = pySplit sep x ++ [[]] := by
  intro x
  induction x with
  | nil => simp [pySplit]
  | cons c x2 ih =>
    cases h : pySplit sep x2 with
    | nil => exact absurd h (pySplit_ne_nil sep x2)
    | cons t ts =>
      rw [List.cons_append]
      unfold pySplit
      rw [ih, h]
      simp only [List.cons_append]
      by_cases hc : c = sep
      · rw [if_pos hc, if_pos hc]
        rfl
      · rw [if_neg hc, if_neg hc]
        rfl

/-- When a non-empty string does not end with the separator, the last
part of its split is non-empty. -/
lemma pySplit_getLast_ne_nil (sep : Char) :
    ∀ s : List Char, s ≠ [] → s.getLast? ≠ some sep →
    (pySplit sep s).getLast? ≠ some ([] : List Char) := by
  intro s
  induction s with
  | nil => intro h _; exact absurd rfl h
  | cons c rest ih =>
    intro _ hlast
    cases rest with
    | nil =>
      have hc : c ≠ sep := by
        intro e
        exact hlast (by rw [e]; rfl)
      rw [pySplit_cons, pySplit_nil]
      dsimp only
      rw [if_neg hc]
      intro he
      exact absurd (Option.some.inj he) (List.cons_ne_nil c [])
    | cons d rest2 =>
      rw [List.getLast?_cons_cons] at hlast
      have ihr := ih (List.cons_ne_nil d rest2) hlast
      cases hp : pySplit sep (d :: rest2) with
      | nil => exact absurd hp (pySplit_ne_nil _ _)
      | cons t ts =>
        rw [hp] at ihr
        unfold pySplit
        rw [hp]
        dsimp only
        by_cases hc : c = sep
        · rw [if_pos hc]
          rw [List.getLast?_cons_cons]
          exact ihr
        · rw [if_neg hc]
          cases ts with
          | nil =>
            intro he
            exact absurd (Option.some.inj he) (List.cons_ne_nil c t)
          | cons u us =>
            rw [List.getLast?_cons_cons]
            rw [List.getLast?_cons_cons] at ihr
            exact ihr

/-- The number of parts of a Python split is the separator count plus
one. -/
lemma pySplit_length (sep : Char) :
    ∀ s : List Char, (pySplit sep s).length = s.count sep + 1 := by
  intro s
  induction s with
  | nil => rfl
  | cons c rest ih =>
    cases h : pySplit sep rest with
    | nil => exact absurd h (pySplit_ne_nil _ _)
    | cons t ts =>
      rw [h] at ih
      unfold pySplit
      rw [h]
      dsimp only
      by_cases hc : c = sep
      · rw [if_pos hc]
        simp only [List.length_cons] at ih ⊢
        rw [List.count_cons]
        simp only [hc, beq_self_eq_true, if_true]
        omega
      · rw [if_neg hc]
        simp only [List.length_cons] at ih ⊢
        rw [List.count_cons]
        have hcb : (c == sep) = false := by
          simp only [beq_eq_false_iff_ne, ne_eq]
          exact hc
        rw [hcb]
        simp only [Bool.false_eq_true, if_false]
        omega

/-- Claim C5 as stated is false: the signature `(I;)V` parses to the
single argument token `I`, and re-joining the tokens with the delimiter
gives `I`, which is not the original argument portion `I;` — the parser
drops a terminal delimiter, so re-joining is not always lossless. -/
theorem parse_rejoin_loses_trailing_delimiter :
    parse_definition ['(', 'I', ';', ')', 'V'] = .ok (['V'], [['I']]) ∧
    joinSep ';' [['I']] = ['I'] ∧ (['I'] : List Char) ≠ ['I', ';'] :=
  ⟨rfl, rfl, by decide⟩

/-- Claim C5, amended: for a well-formed signature whose argument portion
is `a` and return portion is `r` (neither containing the closing
parenthesis), the parse succeeds, returns `r` as the return descriptor,
and re-joining the argument tokens with the delimiter reproduces `a`
exactly whenever `a` does not end with the delimiter; when `a` ends with
the delimiter, re-joining reproduces `a` with that single trailing
delimiter removed. -/
theorem parse_rejoin_amended (a r ret : List Char) (toks : List (List Char))
    (ha : ')' ∉ a) (hr : ')' ∉ r)
    (hp : parse_definition ('(' :: (a ++ ')' :: r)) = .ok (ret, toks)) :
    ret = r ∧
    joinSep ';' toks = (if a.getLast? = some ';' then a.dropLast else a) := by
  have hsplit : pySplit ')' (('(' :: (a ++ ')' :: r)).drop 1) = [a, r] := by
    simp only [List.drop_succ_cons, List.drop_zero]
    rw [pySplit_append_cons ')' a r ha, pySplit_not_mem ')' r hr]
  unfold parse_definition at hp
  rw [hsplit] at hp
  dsimp only at hp
  obtain ⟨h1, h2⟩ := Prod.mk.inj (Except.ok.inj hp)
  refine ⟨h1.symm, ?_⟩
  rw [← h2]
  by_cases hemp : a = []
  · rw [if_pos hemp]
    subst hemp
    rfl
  · rw [if_neg hemp]
    by_cases hlast : a.getLast? = some ';'
    · rw [if_pos hlast]
      have hLast := List.getLast?_eq_getLast a hemp
      have hlv : a.getLast hemp = ';' := by
        rw [hLast] at hlast
        exact Option.some.inj hlast
      have hdecomp : a.dropLast ++ [';'] = a := by
        conv_rhs => rw [← List.dropLast_append_getLast hemp]
        rw [hlv]
      have hps : pySplit ';' a = pySplit ';' a.dropLast ++ [[]] := by
        conv_lhs => rw [← hdecomp]
        rw [pySplit_concat]
      rw [hps]
      unfold dropTrailingEmpty
      rw [List.getLast?_concat, if_pos rfl, List.dropLast_concat]
      exact joinSep_pySplit ';' a.dropLast
    · rw [if_neg hlast]
      have hnn := pySplit_getLast_ne_nil ';' a hemp hlast
      unfold dropTrailingEmpty
      rw [if_neg hnn]
      exact joinSep_pySplit ';' a

/-- Witness for the amended claim C5 at the argument portion `I;`
(which ends with the delimiter) and return portion `V`. -/
theorem parse_rejoin_amended_witness :
    (['V'] : List Char) = ['V'] ∧
    joinSep ';' [['I']] =
      (if (['I', ';'] : List Char).getLast? = some ';'
       then (['I', ';'] : List Char).dropLast else ['I', ';']) :=
  parse_rejoin_amended ['I', ';'] ['V'] ['V'] [['I']] (by decide) (by decide) rfl

/-- Claim C6: the parser fails (with the failure that the unpacking of
the closing-parenthesis split raises) exactly when that split does not
yield two parts, i.e. when the text after the leading character does not
contain exactly one closing parenthesis; when it does yield two parts,
parsing succeeds and returns a pair, with no semantic validation of the
descriptor tokens. -/
theorem parse_two_parts_dichotomy (d : List Char) :
    ((d.drop 1).count ')' ≠ 1 → parse_definition d = .error .valueError) ∧
    ((d.drop 1).count ')' = 1 →
      ∃ ret toks, parse_definition d = .ok (ret, toks)) := by
  have hlen := pySplit_length ')' (d.drop 1)
  constructor
  · intro hne
    unfold parse_definition
    cases hp : pySplit ')' (d.drop 1) with
    | nil => rfl
    | cons a l1 =>
      cases l1 with
      | nil => rfl
      | cons r l2 =>
        cases l2 with
        | nil =>
          rw [hp] at hlen
          simp only [List.length_cons, List.length_nil] at hlen
          exact absurd (by omega) hne
        | cons x l3 => rfl
  · intro he
    unfold parse_definition
    cases hp : pySplit ')' (d.drop 1) with
    | nil => exact absurd hp (pySplit_ne_nil _ _)
    | cons a l1 =>
      cases l1 with
      | nil =>
        rw [hp] at hlen
        simp only [List.length_cons, List.length_nil] at hlen
        omega
      | cons r l2 =>
        cases l2 with
        | nil => exact ⟨r, _, rfl⟩
        | cons x l3 =>
          rw [hp] at hlen
          simp only [List.length_cons] at hlen
          omega

/-- Witness for claim C6: `(V` has no closing parenthesis and is
rejected; `(I)V` splits into exactly two parts and parses. -/
theorem parse_two_parts_dichotomy_witness :
    parse_definition ['(', 'V'] = .error .valueError ∧
    ∃ ret toks, parse_definition ['(', 'I', ')', 'V'] = .ok (ret, toks) :=
  ⟨(parse_two_parts_dichotomy ['(', 'V']).1 (by decide),
   (parse_two_parts_dichotomy ['(', 'I', ')', 'V']).2 (by decide)⟩
